import Mathlib

/-!
Shallow embedding of the `starlette_admin` Tortoise ORM adapter
(`starlette_admin/contrib/tortoise` and `starlette_admin/contrib/tortoise_admin`)
and proofs about its helper functions, composite-primary-key field,
exception handling, create flow, converter lookup and connection middleware.

Python dynamic values are modelled by the inductive `PyVal`; Python exceptions
by `Exc`; raising functions return `Except`.
-/

set_option autoImplicit false

/-- Model of the Python values flowing through the adapter:
`None`, strings, ints, bools, UUIDs, tuples and lists. -/
inductive PyVal where
  | none
  | str (s : String)
  | int (n : Int)
  | bool (b : Bool)
  | uuid (s : String)
  | tuple (vs : List PyVal)
  | list (vs : List PyVal)
  deriving Repr

mutual

/-- Python `repr(v)` (as far as the adapter values need it). -/
def pyRepr : PyVal → String
  | .none => "None"
  | .str s => "\x27" ++ s ++ "\x27"
  | .int n => toString n
  | .bool b => if b then "True" else "False"
  | .uuid s => "UUID(\x27" ++ s ++ "\x27)"
  | .tuple [v] => "(" ++ pyRepr v ++ ",)"
  | .tuple vs => "(" ++ String.intercalate ", " (pyReprList vs) ++ ")"
  | .list vs => "[" ++ String.intercalate ", " (pyReprList vs) ++ "]"

/-- Python repr mapped over a list of values. -/
def pyReprList : List PyVal → List String
  | [] => []
  | v :: vs => pyRepr v :: pyReprList vs

end

/-- Python `str(v)`: like `repr` except that strings and UUIDs print bare. -/
def pyStr : PyVal → String
  | .str s => s
  | .uuid s => s
  | v => pyRepr v

/-- Python `type(v).__name__`. -/
def pyTypeName : PyVal → String
  | .none => "NoneType"
  | .str _ => "str"
  | .int _ => "int"
  | .bool _ => "bool"
  | .uuid _ => "UUID"
  | .tuple _ => "tuple"
  | .list _ => "list"

/-- Python truth-value testing: `None`, `""`, `0`, `False` and empty
containers are falsy. -/
def pyFalsy : PyVal → Bool
  | .none => true
  | .str s => s == ""
  | .int n => n == 0
  | .bool b => !b
  | .uuid _ => false
  | .tuple vs => vs.isEmpty
  | .list vs => vs.isEmpty

/-- Splitting loop of Python `"…".split(",")`: `acc` is the current chunk,
in reverse. -/
def splitCommaAux : List Char → List Char → List String
  | [], acc => [String.mk acc.reverse]
  | c :: cs, acc =>
      if c == ',' then String.mk acc.reverse :: splitCommaAux cs []
      else splitCommaAux cs (c :: acc)

/-- Python `value.split(",")`: split on every comma, keeping empty chunks
(so `"1,".split(",") == ["1", ""]` and `"".split(",") == [""]`). -/
def splitComma (s : String) : List String :=
  splitCommaAux s.toList []

/-- The exceptions the adapter distinguishes: the ORM exception `ValidationError`
(carrying a per-field error mapping), the admin framework exception
`FormValidationError` (also a field-to-message mapping), and any other
exception (class name plus message). -/
inductive Exc where
  | validation (errors : List (String × String))
  | formValidation (errors : List (String × String))
  | other (clsName msg : String)
  deriving Repr, DecidableEq

/-- Python `str(e)` on an exception, as used by the legacy views when they
wrap the message of an arbitrary exception. -/
def excStr : Exc → String
  | .validation errors => String.intercalate ", " (errors.map (·.2))
  | .formValidation errors => String.intercalate ", " (errors.map (·.2))
  | .other _ msg => msg

namespace Tortoise

/-- Source `starlette_admin/contrib/tortoise/helpers.py`, `normalize_list`:
converts field names to strings and validates format; `None` passes
through; a raised `ValueError` is modelled by `Except.error`. -/
def normalize_list (arr : Option (List PyVal)) (is_default_sort_list : Bool := false) :
    Except String (Option (List PyVal)) :=
  match arr with
  | Option.none => .ok Option.none
  | Option.some arr => (go arr).map Option.some
where
  /-- The accumulation loop of `normalize_list`. -/
  go : List PyVal → Except String (List PyVal)
  | [] => .ok []
  | v :: rest =>
    match v with
    | .str s =>
        (go rest).map fun tl =>
          (if is_default_sort_list then .tuple [.str s, .bool false] else .str s) :: tl
    | .tuple vs =>
        if is_default_sort_list then
          match vs with
          | [.str a, .bool b] => (go rest).map fun tl => .tuple [.str a, .bool b] :: tl
          | _ => .error "Invalid argument, Expected Tuple[str, bool]"
        else .error ("Expected str, got " ++ pyTypeName (.tuple vs))
    | v => .error ("Expected str, got " ++ pyTypeName v)

end Tortoise

namespace TortoiseAdmin

/-- Source `starlette_admin/contrib/tortoise_admin/helpers.py`, `normalize_list`:
normalizes a value to a list; it never raises. -/
def normalize_list (value : PyVal) (is_default_sort_list : Bool := false) : List PyVal :=
  match value with
  | .none => []
  | .list vs =>
      if is_default_sort_list then
        vs.map fun v => match v with | .str s => .tuple [.str s, .bool false] | v => v
      else vs
  | .tuple vs =>
      if is_default_sort_list then
        vs.map fun v => match v with | .str s => .tuple [.str s, .bool false] | v => v
      else vs
  | v =>
      if is_default_sort_list then
        match v with | .str s => [.tuple [.str s, .bool false]] | v => [v]
      else [v]

end TortoiseAdmin

namespace Tortoise

/-- Source `starlette_admin/contrib/tortoise/fields.py`,
`MultiplePKField.serialize_value`: a list or tuple is comma-joined from the
`str` form of its components, anything else is `str(value)`. -/
def serialize_value (value : PyVal) : String :=
  match value with
  | .list vs => String.intercalate "," (vs.map pyStr)
  | .tuple vs => String.intercalate "," (vs.map pyStr)
  | v => pyStr v

/-- Source `starlette_admin/contrib/tortoise/fields.py`,
`MultiplePKField.parse_value`: a string containing a comma is split into a
list; every other value is returned unchanged.  It never raises. -/
def parse_value (value : PyVal) : PyVal :=
  match value with
  | .str s =>
      if s.toList.contains ',' then .list ((splitComma s).map PyVal.str)
      else .str s
  | v => v

end Tortoise

namespace TortoiseAdmin

/-- Source `starlette_admin/contrib/tortoise_admin/fields.py`,
`MultiplePKField.serialize_value`: `None` becomes the empty string, a list
or tuple is comma-joined, a UUID or any other scalar becomes `str(value)`. -/
def serialize_value (value : PyVal) : String :=
  match value with
  | .none => ""
  | .list vs => String.intercalate "," (vs.map pyStr)
  | .tuple vs => String.intercalate "," (vs.map pyStr)
  | .uuid s => pyStr (.uuid s)
  | v => pyStr v

/-- Source `starlette_admin/contrib/tortoise_admin/fields.py`,
`MultiplePKField.parse_value` (for the field named `name`): a falsy value
parses to `None`; a comma-containing string splits into parts, raising
`FormValidationError` keyed by the field name when any part is empty,
otherwise yielding the tuple of parts; anything else passes through. -/
def parse_value (name : String) (value : PyVal) : Except Exc PyVal :=
  if pyFalsy value then .ok .none
  else match value with
  | .str s =>
      if s.toList.contains ',' then
        let parts := splitComma s
        if parts.all (fun p => !(p == "")) then .ok (.tuple (parts.map PyVal.str))
        else .error (.formValidation
          [(name, "All parts of composite primary key must be provided")])
      else .ok (.str s)
  | v => .ok v

end TortoiseAdmin

/-- ASCII lower-casing of a string, the model of Python `s.lower()`. -/
def strLower (s : String) : String :=
  String.mk (s.toList.map Char.toLower)

/-- Whether `t` is a leading segment of `s` (character lists). -/
def leadsWith : List Char → List Char → Bool
  | [], _ => true
  | _ :: _, [] => false
  | c :: cs, d :: ds => c == d && leadsWith cs ds

/-- Whether `t` occurs as a contiguous segment of `s` (character lists). -/
def occursIn (t : List Char) : List Char → Bool
  | [] => leadsWith t []
  | d :: ds => leadsWith t (d :: ds) || occursIn t ds

/-- Case-insensitive substring containment, the semantics the ORM gives an
`icontains` lookup. -/
def icontainsB (haystack needle : String) : Bool :=
  occursIn (strLower needle).toList (strLower haystack).toList

/-- The fragment of the `Q` expression language of the ORM the adapter builds:
`Q()` (the no-op), a single `field__icontains=term` lookup, and an
OR-combination `Q(*queries, join_type="OR")`. -/
inductive Q where
  | noop
  | icontains (field term : String)
  | orQ (qs : List Q)
  deriving Repr

/-- A database record, as far as predicate evaluation needs it: a map from
field name to the value of the column, where `Option.none` is SQL NULL
(nullable columns exist and searchable fields are user-configurable). -/
def Record : Type := String → Option String

mutual

/-- Evaluate a `Q` predicate against a record: `Q()` matches everything; an
`icontains` lookup compiles to SQL `LIKE`, so a NULL column matches NO
pattern (`NULL LIKE p` is NULL, and the row is filtered out) and a non-NULL
column matches by case-insensitive substring containment; an OR combination
matches when any branch matches. -/
def Q.eval (r : Record) : Q → Bool
  | .noop => true
  | .icontains f t =>
      match r f with
      | Option.none => false
      | some s => icontainsB s t
  | .orQ qs => Q.evalAny r qs

/-- Evaluates to `true` when some predicate in the list matches the record. -/
def Q.evalAny (r : Record) : List Q → Bool
  | [] => false
  | q :: qs => Q.eval r q || Q.evalAny r qs

end

namespace TortoiseAdmin

/-- Source `starlette_admin/contrib/tortoise_admin/helpers.py`, `build_search_query`:
with no fields or an empty term it returns `Q()`; otherwise the
OR-combination of one `icontains` condition per field. -/
def build_search_query (term : String) (fields : List String) : Q :=
  if fields.isEmpty || term == "" then .noop
  else .orQ (fields.map fun field => .icontains field term)

end TortoiseAdmin

namespace Tortoise

/-- Source `starlette_admin/contrib/tortoise/view.py`, `ModelView.get_search_query`:
`self.searchable_fields or []`; an empty field list returns `Q()`, otherwise
the OR-combination of one `icontains` condition per field — the term is not
checked. -/
def get_search_query (searchable_fields : Option (List String)) (term : String) : Q :=
  let search_fields := searchable_fields.getD []
  if search_fields.isEmpty then .noop
  else .orQ (search_fields.map fun field => .icontains field term)

end Tortoise

/-- Python whitespace for `str.split()` / `str.strip()`. -/
def isPySpace (c : Char) : Bool :=
  c == ' ' || c == '\t' || c == '\n' || c == '\r' || c == '\x0b' || c == '\x0c'

/-- Python `s.strip()`: drop leading and trailing whitespace. -/
def pyStrip (s : String) : String :=
  String.mk (((s.toList.dropWhile isPySpace).reverse.dropWhile isPySpace).reverse)

/-- Python `s.split(maxsplit=1)`: split on runs of whitespace, at most once;
leading whitespace is skipped, and the second element (when present) is the
remainder with its leading whitespace removed.  The result has zero, one or
two elements. -/
def splitMax1 (s : String) : List String :=
  let l := s.toList.dropWhile isPySpace
  if l.isEmpty then []
  else
    let tok := l.takeWhile (fun c => !isPySpace c)
    let rest := (l.dropWhile fun c => !isPySpace c).dropWhile isPySpace
    if rest.isEmpty then [String.mk tok]
    else [String.mk tok, String.mk rest]

namespace TortoiseAdmin

/-- Source `starlette_admin/contrib/tortoise_admin/helpers.py`, `build_order_query`:
each entry is stripped and split with `maxsplit=1` into
`field, direction`; a `"desc"` direction (case-insensitive) yields
`"-" ++ field`, any other direction yields `field`; an entry with fewer
than two whitespace-separated tokens makes the tuple unpacking raise
`ValueError`, modelled as `Except.error`. -/
def build_order_query : List String → Except String (List String)
  | [] => .ok []
  | value :: rest =>
      match splitMax1 (pyStrip value) with
      | [field, direction] =>
          (build_order_query rest).map fun tl =>
            (if strLower direction == "desc" then "-" ++ field else field) :: tl
      | _ => .error "not enough values to unpack (expected 2)"

end TortoiseAdmin

/-- A Python class as the converter lookup sees it: defining module plus
bare class name.  The `__mro__` of a field type is modelled as the list of its
ancestor classes in method-resolution order. -/
structure PyClass where
  module : String
  clsName : String
  deriving Repr, DecidableEq

/-- The fully-qualified name `f"{base.__module__}.{base.__name__}"`. -/
def qualName (c : PyClass) : String :=
  c.module ++ "." ++ c.clsName

namespace TortoiseAdmin

/-- Source `starlette_admin/contrib/tortoise_admin/converters.py`,
`BaseTortoiseModelConverter.find_converter_for_field_type`: walk the mro;
for each base first try the registered-converters mapping keyed by the
fully-qualified name, then by the bare class name; first hit wins.
Converter functions are modelled by opaque identifiers (strings). -/
def find_converter_for_field_type (converters : List (String × String)) :
    List PyClass → Option String
  | [] => Option.none
  | base :: rest =>
      match converters.lookup (qualName base) with
      | some c => some c
      | Option.none =>
          match converters.lookup base.clsName with
          | some c => some c
          | Option.none => find_converter_for_field_type converters rest

/-- Source `BaseTortoiseModelConverter.get_converter`: return the found converter
or raise `NotSupportedColumn` naming the field (`fieldRepr` is
`f"{field_type}"`). -/
def get_converter (converters : List (String × String)) (mro : List PyClass)
    (fieldRepr : String) : Except String String :=
  match find_converter_for_field_type converters mro with
  | some c => .ok c
  | Option.none =>
      .error ("Field " ++ fieldRepr ++ " cannot be converted automatically. "
        ++ "Find the appropriate field manually or provide your custom converter")

/-- One step of the mro walk: qualified-name lookup first, bare-name lookup
second.  Used to state what `find_converter_for_field_type` computes. -/
def converterHit (converters : List (String × String)) (base : PyClass) : Option String :=
  (converters.lookup (qualName base)).orElse fun _ => converters.lookup base.clsName

/-- Source `starlette_admin/contrib/tortoise_admin/view.py`,
`ModelView.handle_exception`: the ORM exception `ValidationError` is re-raised as
`FormValidationError` carrying its per-field errors; every other exception
is re-raised unchanged.  The function returns the exception that ends up
raised. -/
def handle_exception (exc : Exc) : Exc :=
  match exc with
  | .validation errors => .formValidation errors
  | exc => exc

/-- Source `starlette_admin/contrib/tortoise_admin/middleware.py`, the rollback
loop of `TortoiseMiddleware.dispatch`: for every connection name in
`connections.db_config`, run the `try` block (get the connection and roll
it back, an effect that may fail) and swallow any error (`except: pass`).
Returns the names for which a rollback was attempted, in order. -/
def attemptRollbacks (rollback : String → Except Exc Unit) : List String → List String
  | [] => []
  | c :: cs =>
      match rollback c with
      | .ok _ => c :: attemptRollbacks rollback cs
      | .error _ => c :: attemptRollbacks rollback cs

/-- Source `TortoiseMiddleware.dispatch`, after initialization: run the downstream
handler; on success return its response, on any exception attempt a
rollback of every known connection and re-raise the original exception
(bare `raise`).  The first component is the list of connections on which a
rollback was attempted. -/
def dispatch (db_config : List String) (rollback : String → Except Exc Unit)
    (call_next : Except Exc String) : List String × Except Exc String :=
  match call_next with
  | .ok response => ([], .ok response)
  | .error e => (attemptRollbacks rollback db_config, .error e)

end TortoiseAdmin

/-- Kind of an entry of `model._meta.fields_map`: a plain column, a to-one
relation (foreign key / one-to-one / backward relation), or a
many-to-many relation.  `isinstance(field, relational.RelationalField)`
holds exactly when the kind is not `scalar`. -/
inductive FieldKind where
  | scalar
  | toOne
  | manyToMany
  deriving Repr, DecidableEq

/-- A UI field as `get_fields_list` yields it: its name, whether it is a
`RelationField`, and the `multiple` flag of the relation. -/
structure UIField where
  name : String
  isRelation : Bool
  multiple : Bool
  deriving Repr, DecidableEq

/-- Python `v is None` (the identity test against Python `None`). -/
def isPyNone : PyVal → Bool
  | .none => true
  | _ => false

/-- Observable database/ORM effects of a create call, in order:
the `before_create` hook, `instance.save()`, a many-to-many
`getattr(instance, field).add(*value)`, a to-one
`setattr(instance, field, value)` assignment, and the `after_create`
hook.  Nothing in the language removes a saved instance, so a `save` in the
trace of a run is an instance that stays persisted. -/
inductive Ev where
  | beforeCreate
  | save
  | addRel (field : String) (values : List PyVal)
  | assignRel (field : String) (value : PyVal)
  | afterCreate
  deriving Repr

/-- Python argument unpacking `f(*value)`: lists and tuples unpack to their
elements, strings to their characters, anything else raises `TypeError`. -/
def starArgs : PyVal → Except Exc (List PyVal)
  | .list vs => .ok vs
  | .tuple vs => .ok vs
  | .str s => .ok (s.toList.map fun c => PyVal.str (String.mk [c]))
  | v => .error (.other "TypeError"
      ("Value after * must be an iterable, not " ++ pyTypeName v))

/-- The relation-extraction loop shared by both `create` implementations:
`relations[field_name] = data.pop(field_name)` for every relational entry
of `fields_map` that is present in `data`. -/
def extractRelations (fields_map : List (String × FieldKind))
    (data : List (String × PyVal)) : List (String × PyVal) :=
  fields_map.filterMap fun fk =>
    if fk.2 ≠ FieldKind.scalar then (data.lookup fk.1).map fun v => (fk.1, v)
    else Option.none

/-- The "Set relations" loop shared by both `create` implementations: a
many-to-many field runs `add(*value)` (whose unpacking or add call may
raise, `addFailure` giving the injected add outcome), any other relational
field runs `setattr` followed by `instance.save()`.  `tr` is the event
trace so far; the result is the final trace and the escaped exception, if
any. -/
def setRelations (fields_map : List (String × FieldKind))
    (addFailure : String → List PyVal → Option Exc) :
    List (String × PyVal) → List Ev → List Ev × Option Exc
  | [], tr => (tr, Option.none)
  | (f, v) :: rest, tr =>
      match (fields_map.lookup f).getD FieldKind.scalar with
      | .manyToMany =>
          match starArgs v with
          | .error e => (tr, some e)
          | .ok vs =>
              match addFailure f vs with
              | some e => (tr ++ [.addRel f vs], some e)
              | Option.none => setRelations fields_map addFailure rest (tr ++ [.addRel f vs])
      | _ => setRelations fields_map addFailure rest (tr ++ [.assignRel f v, .save])

namespace TortoiseAdmin

/-- The environment of one `tortoise_admin` `ModelView.create` call: the
field map of the model, the UI field list, the foreign-model lookups performed
by `_arrange_data` (`find_by_pk` / `find_by_pks`), and the injected
outcomes of the external effects (`instance.validate()`, the two lifecycle
hooks, and many-to-many `add`). -/
structure CreateEnv where
  fields_map : List (String × FieldKind)
  ui_fields : List UIField
  resolve_pk : String → PyVal → PyVal
  resolve_pks : String → PyVal → PyVal
  validationFailure : Option (List (String × String))
  beforeFailure : Option Exc
  afterFailure : Option Exc
  addFailure : String → List PyVal → Option Exc

/-- Source `starlette_admin/contrib/tortoise_admin/view.py`,
`ModelView._arrange_data` (create path): for every UI field, a relation
field whose input value is not `None` is replaced by the foreign model
`find_by_pk` (single) or `find_by_pks` (multiple) result; the value of every other
field is copied as-is.  `data[field.name]` on a missing key raises
`KeyError`. -/
def _arrange_data (env : CreateEnv) (data : List (String × PyVal)) :
    Except Exc (List (String × PyVal)) :=
  go env.ui_fields
where
  /-- The loop over `get_fields_list`. -/
  go : List UIField → Except Exc (List (String × PyVal))
  | [] => .ok []
  | f :: rest =>
      match data.lookup f.name with
      | Option.none => .error (.other "KeyError" f.name)
      | some v =>
          if f.isRelation && !isPyNone v then
            if !f.multiple then
              (go rest).map fun tl => (f.name, env.resolve_pk f.name v) :: tl
            else
              (go rest).map fun tl => (f.name, env.resolve_pks f.name v) :: tl
          else
            (go rest).map fun tl => (f.name, v) :: tl

/-- Source `ModelView.validate`: run the ORM validation; a `ValidationError` is
re-raised as `FormValidationError(e.errors)`. -/
def validate (env : CreateEnv) : Option Exc :=
  env.validationFailure.map fun errors => .formValidation errors

/-- Source `starlette_admin/contrib/tortoise_admin/view.py`, `ModelView.create`:
arrange the data, validate it, pop the relational entries, construct the
instance, run `before_create`, save, run the "Set relations" loop, run
`after_create`; any exception escaping the body is routed through
`handle_exception`.  Returns the event trace and the escaped exception, if
any. -/
def create (env : CreateEnv) (data : List (String × PyVal)) :
    List Ev × Option Exc :=
  let body : List Ev × Option Exc :=
    match _arrange_data env data with
    | .error e => ([], some e)
    | .ok arranged =>
        match validate env with
        | some e => ([], some e)
        | Option.none =>
            let relations := extractRelations env.fields_map arranged
            match env.beforeFailure with
            | some e => ([.beforeCreate], some e)
            | Option.none =>
                match setRelations env.fields_map env.addFailure relations
                    [.beforeCreate, .save] with
                | (tr, some e) => (tr, some e)
                | (tr, Option.none) =>
                    match env.afterFailure with
                    | some e => (tr, some e)
                    | Option.none => (tr ++ [.afterCreate], Option.none)
  match body with
  | (tr, some e) => (tr, some (handle_exception e))
  | r => r

end TortoiseAdmin

namespace Tortoise

/-- The environment of one legacy `tortoise` `ModelView.create` call: the
field map of the model plus the injected outcomes of `model.create(**data)`
and many-to-many `add`. -/
structure CreateEnv where
  fields_map : List (String × FieldKind)
  createFailure : Option Exc
  addFailure : String → List PyVal → Option Exc

/-- Source `starlette_admin/contrib/tortoise/view.py`, `ModelView.create`: pop the
relational entries, `await self.model.create(**data)` (which persists),
run the "Set relations" loop; any exception whatsoever is wrapped as
`FormValidationError({"error": str(e)})`. -/
def create (env : CreateEnv) (data : List (String × PyVal)) :
    List Ev × Option Exc :=
  let body : List Ev × Option Exc :=
    let relations := extractRelations env.fields_map data
    match env.createFailure with
    | some e => ([], some e)
    | Option.none =>
        setRelations env.fields_map env.addFailure relations [.save]
  match body with
  | (tr, some e) => (tr, some (.formValidation [("error", excStr e)]))
  | r => r

end Tortoise

/-- Python `isinstance(v, str)`. -/
def isStr : PyVal → Bool
  | .str _ => true
  | _ => false

/-- A well-shaped default-sort entry: a bare name or a `(name, bool)` pair. -/
def isSortEntry : PyVal → Bool
  | .str _ => true
  | .tuple [.str _, .bool _] => true
  | _ => false

/-- Default-sort normalization of one entry: a bare name becomes
`(name, False)`, anything else is kept as-is. -/
def sortNorm : PyVal → PyVal
  | .str s => .tuple [.str s, .bool false]
  | v => v

/-- Injection of well-shaped default-sort entries into `PyVal`: a bare
name or a `(name, is_descending)` pair. -/
def sortEntryVal : String ⊕ (String × Bool) → PyVal
  | .inl s => .str s
  | .inr (s, b) => .tuple [.str s, .bool b]

/-- The ordering key `build_order_query` computes for one entry. -/
def orderKey (value : String) : String :=
  match splitMax1 (pyStrip value) with
  | [field, direction] => if strLower direction == "desc" then "-" ++ field else field
  | _ => ""

/-- Python `s.split()` (full whitespace split): the maximal non-whitespace
runs of `s`. -/
def wsTokens (s : String) : List String :=
  ((s.toList.splitOnP isPySpace).filter fun chunk => !chunk.isEmpty).map String.mk

/-- Events of the create flow that happen strictly after the first
`instance.save()` in the source: relation attachment and the post-create
hook. -/
def isRelEv : Ev → Bool
  | .addRel _ _ => true
  | .assignRel _ _ => true
  | .afterCreate => true
  | _ => false

/-- The rollback loop visits every known connection exactly once, in order,
whatever the outcome of each rollback attempt is. -/
theorem attemptRollbacks_eq_conns (rollback : String → Except Exc Unit)
    (conns : List String) :
    TortoiseAdmin.attemptRollbacks rollback conns = conns := by
  induction conns with
  | nil => rfl
  | cons c cs ih =>
      cases h : rollback c <;> simp [TortoiseAdmin.attemptRollbacks, h, ih]

/-- C8 (confirmed). Connection-middleware failure path: whenever the
downstream handler raises, `dispatch` attempts exactly one rollback per
known connection (the attempted list is exactly `db_config`, in order),
the outcome of every rollback attempt is swallowed (the result does not
depend on `rollback` at all, which is universally quantified), and the
original exception is re-raised unchanged; on success no rollback is
attempted. -/
theorem C8_middleware_failure_path :
    (∀ (conns : List String) (rollback : String → Except Exc Unit) (e : Exc),
        TortoiseAdmin.dispatch conns rollback (.error e) = (conns, .error e)) ∧
    (∀ (conns : List String) (rollback : String → Except Exc Unit) (resp : String),
        TortoiseAdmin.dispatch conns rollback (.ok resp) = ([], .ok resp)) := by
  refine ⟨fun conns rollback e => ?_, fun conns rollback resp => rfl⟩
  simp [TortoiseAdmin.dispatch, attemptRollbacks_eq_conns]

/-- The mro walk is: apply the qualified-then-bare lookup to each ancestor
in order and take the first hit. -/
theorem find_converter_eq_findSome (convs : List (String × String))
    (mro : List PyClass) :
    TortoiseAdmin.find_converter_for_field_type convs mro
      = mro.findSome? (TortoiseAdmin.converterHit convs) := by
  induction mro with
  | nil => rfl
  | cons base rest ih =>
      cases h1 : convs.lookup (qualName base) with
      | some c =>
          simp [TortoiseAdmin.find_converter_for_field_type, List.findSome?,
            TortoiseAdmin.converterHit, h1, Option.orElse]
      | none =>
          cases h2 : convs.lookup base.clsName with
          | some c =>
              simp [TortoiseAdmin.find_converter_for_field_type, List.findSome?,
                TortoiseAdmin.converterHit, h1, h2, Option.orElse]
          | none =>
              simp [TortoiseAdmin.find_converter_for_field_type, List.findSome?,
                TortoiseAdmin.converterHit, h1, h2, Option.orElse, ih]

/-- C9 (confirmed). Field-converter lookup: the converter walks the
mro of the field type in order, checking the registered mapping first by
fully-qualified name and then by bare name, first hit wins
(`List.findSome?` of the per-ancestor hit); when no ancestor matches,
`get_converter` raises a `NotSupportedColumn` whose message names the
field. -/
theorem C9_converter_lookup :
    (∀ (convs : List (String × String)) (mro : List PyClass),
        TortoiseAdmin.find_converter_for_field_type convs mro
          = mro.findSome? (TortoiseAdmin.converterHit convs)) ∧
    (∀ (convs : List (String × String)) (base : PyClass) (c : String),
        convs.lookup (qualName base) = some c →
        TortoiseAdmin.converterHit convs base = some c) ∧
    (∀ (convs : List (String × String)) (base : PyClass),
        convs.lookup (qualName base) = Option.none →
        TortoiseAdmin.converterHit convs base = convs.lookup base.clsName) ∧
    (∀ (convs : List (String × String)) (mro : List PyClass) (r c : String),
        TortoiseAdmin.find_converter_for_field_type convs mro = some c →
        TortoiseAdmin.get_converter convs mro r = .ok c) ∧
    (∀ (convs : List (String × String)) (mro : List PyClass) (r : String),
        TortoiseAdmin.find_converter_for_field_type convs mro = Option.none →
        TortoiseAdmin.get_converter convs mro r
          = .error ("Field " ++ r ++ " cannot be converted automatically. "
              ++ "Find the appropriate field manually or provide your custom converter")) := by
  refine ⟨find_converter_eq_findSome, ?_, ?_, ?_, ?_⟩
  · intro convs base c h
    simp [TortoiseAdmin.converterHit, h, Option.orElse]
  · intro convs base h
    simp [TortoiseAdmin.converterHit, h, Option.orElse]
  · intro convs mro r c h
    simp [TortoiseAdmin.get_converter, h]
  · intro convs mro r h
    simp [TortoiseAdmin.get_converter, h]

/-- Witness for C9 at a concrete registry and mro: `IntField` resolves by
bare name, and an unknown type raises the "not supported" error naming the
field. -/
theorem C9_converter_lookup_witness :
    TortoiseAdmin.get_converter [("IntField", "conv_integer")]
        [⟨"tortoise.fields.data", "IntField"⟩] "model.count" = .ok "conv_integer" ∧
    TortoiseAdmin.get_converter [("IntField", "conv_integer")]
        [⟨"tortoise.fields.data", "BlobField"⟩] "model.blob"
      = .error ("Field model.blob cannot be converted automatically. "
          ++ "Find the appropriate field manually or provide your custom converter") :=
  ⟨C9_converter_lookup.2.2.2.1 _ _ _ _ rfl, C9_converter_lookup.2.2.2.2 _ _ _ rfl⟩

/-- On an all-string list, the legacy plain-mode loop is the identity. -/
theorem Tortoise_normalize_go_all_str (l : List PyVal)
    (h : ∀ v ∈ l, isStr v = true) :
    Tortoise.normalize_list.go false l = .ok l := by
  induction l with
  | nil => rfl
  | cons v rest ih =>
      have hv := h v (by simp)
      have hrest : ∀ u ∈ rest, isStr u = true := fun u hu => h u (by simp [hu])
      cases v with
      | str s => simp [Tortoise.normalize_list.go, ih hrest, Except.map]
      | none => simp [isStr] at hv
      | int n => simp [isStr] at hv
      | bool b => simp [isStr] at hv
      | uuid s => simp [isStr] at hv
      | tuple vs => simp [isStr] at hv
      | list vs => simp [isStr] at hv

/-- The legacy plain-mode loop raises on the first non-string element,
naming its type. -/
theorem Tortoise_normalize_go_first_bad (l1 : List PyVal) (v : PyVal)
    (l2 : List PyVal) (h1 : ∀ u ∈ l1, isStr u = true) (hv : isStr v = false) :
    Tortoise.normalize_list.go false (l1 ++ v :: l2)
      = .error ("Expected str, got " ++ pyTypeName v) := by
  induction l1 with
  | nil =>
      cases v with
      | str s => simp [isStr] at hv
      | none => rfl
      | int n => rfl
      | bool b => rfl
      | uuid s => rfl
      | tuple vs => rfl
      | list vs => rfl
  | cons u rest ih =>
      have hu := h1 u (by simp)
      have hrest : ∀ w ∈ rest, isStr w = true := fun w hw => h1 w (by simp [hw])
      cases u with
      | str s => simp [Tortoise.normalize_list.go, ih hrest, Except.map]
      | none => simp [isStr] at hu
      | int n => simp [isStr] at hu
      | bool b => simp [isStr] at hu
      | uuid s => simp [isStr] at hu
      | tuple vs => simp [isStr] at hu
      | list vs => simp [isStr] at hu

/-- C4 (corrected). Plain-mode list normalization: the legacy
`tortoise` helper is the identity on all-string sequences and raises
`ValueError` naming the actual type of the first offending element; but the
`tortoise_admin` helper returns ANY list unchanged in plain mode and never
raises, so the raising half of the claim fails for it. -/
theorem C4_plain_normalize_corrected :
    (∀ l : List PyVal, (∀ v ∈ l, isStr v = true) →
        Tortoise.normalize_list (some l) false = .ok (some l)) ∧
    (∀ (l1 : List PyVal) (v : PyVal) (l2 : List PyVal),
        (∀ u ∈ l1, isStr u = true) → isStr v = false →
        Tortoise.normalize_list (some (l1 ++ v :: l2)) false
          = .error ("Expected str, got " ++ pyTypeName v)) ∧
    (∀ l : List PyVal, TortoiseAdmin.normalize_list (.list l) false = l) := by
  refine ⟨fun l h => ?_, fun l1 v l2 h1 hv => ?_, fun l => rfl⟩
  · simp [Tortoise.normalize_list, Tortoise_normalize_go_all_str l h, Except.map]
  · simp [Tortoise.normalize_list, Tortoise_normalize_go_first_bad l1 v l2 h1 hv, Except.map]

/-- Witness for C4: the legacy helper is the identity on `["a", "b"]` and
raises "Expected str, got int" on `[1]`; the `tortoise_admin` helper
passes `[1]` through. -/
theorem C4_plain_normalize_corrected_witness :
    Tortoise.normalize_list (some [.str "a", .str "b"]) false
      = .ok (some [.str "a", .str "b"]) ∧
    Tortoise.normalize_list (some [.int 1]) false
      = .error "Expected str, got int" ∧
    TortoiseAdmin.normalize_list (.list [.int 1]) false = [.int 1] :=
  ⟨C4_plain_normalize_corrected.1 [.str "a", .str "b"]
      (by intro v hv; simp at hv; rcases hv with h | h <;> simp [h, isStr]),
   C4_plain_normalize_corrected.2.1 [] (.int 1) [] (by simp) rfl,
   C4_plain_normalize_corrected.2.2 [.int 1]⟩

/-- C4 counterexample to the claim as stated: `[1]` contains a
non-string element, yet the `tortoise_admin` `normalize_list` (one of the
two cited implementations) returns it unchanged instead of raising a
configuration error — its return type has no error channel at all. -/
theorem C4_plain_normalize_counterexample :
    TortoiseAdmin.normalize_list (.list [.int 1]) false = [.int 1] ∧
    isStr (.int 1) = false :=
  ⟨rfl, rfl⟩

/-- On a list of well-shaped default-sort entries, the legacy loop maps a
bare name to `(name, False)` and keeps a `(name, bool)` pair unchanged. -/
theorem Tortoise_normalize_go_sort_good (es : List (String ⊕ (String × Bool))) :
    Tortoise.normalize_list.go true (es.map sortEntryVal)
      = .ok ((es.map sortEntryVal).map sortNorm) := by
  induction es with
  | nil => rfl
  | cons e rest ih =>
      cases e with
      | inl s => simp [sortEntryVal, Tortoise.normalize_list.go, ih, Except.map, sortNorm]
      | inr p => simp [sortEntryVal, Tortoise.normalize_list.go, ih, Except.map, sortNorm]

/-- A default-sort element of any other shape makes the legacy loop raise. -/
theorem Tortoise_normalize_go_sort_bad (v : PyVal) (l2 : List PyVal)
    (hv : isSortEntry v = false) :
    ∃ msg, Tortoise.normalize_list.go true (v :: l2) = .error msg := by
  cases v with
  | str s => simp [isSortEntry] at hv
  | none => exact ⟨_, rfl⟩
  | int n => exact ⟨_, rfl⟩
  | bool b => exact ⟨_, rfl⟩
  | uuid s => exact ⟨_, rfl⟩
  | list vs => exact ⟨_, rfl⟩
  | tuple vs =>
      rcases vs with _ | ⟨a, tl1⟩
      · exact ⟨_, rfl⟩
      rcases tl1 with _ | ⟨b, tl2⟩
      · cases a <;> exact ⟨_, rfl⟩
      rcases tl2 with _ | ⟨c, tl3⟩
      · cases a <;> cases b <;>
          first
          | exact ⟨_, rfl⟩
          | simp [isSortEntry] at hv
      · cases a <;> cases b <;> exact ⟨_, rfl⟩

/-- C5 (corrected). Default-sort list normalization: in the legacy
`tortoise` helper a bare name becomes `(name, False)`, a `(name, bool)`
pair passes through unchanged, and any other shape raises `ValueError`;
but the `tortoise_admin` helper maps a bare name to `(name, False)` and
passes EVERY other element — well-shaped pair or not — through unchanged,
never raising, so the raising half of the claim fails for it. -/
theorem C5_default_sort_normalize_corrected :
    (∀ es : List (String ⊕ (String × Bool)),
        Tortoise.normalize_list (some (es.map sortEntryVal)) true
          = .ok (some ((es.map sortEntryVal).map sortNorm))) ∧
    (∀ (es : List (String ⊕ (String × Bool))) (v : PyVal) (l2 : List PyVal),
        isSortEntry v = false →
        ∃ msg, Tortoise.normalize_list (some (es.map sortEntryVal ++ v :: l2)) true
          = .error msg) ∧
    (∀ l : List PyVal, TortoiseAdmin.normalize_list (.list l) true = l.map sortNorm) := by
  refine ⟨fun es => ?_, fun es v l2 hv => ?_, fun l => ?_⟩
  · simp [Tortoise.normalize_list, Tortoise_normalize_go_sort_good es, Except.map]
  · induction es with
    | nil =>
        obtain ⟨msg, hmsg⟩ := Tortoise_normalize_go_sort_bad v l2 hv
        exact ⟨msg, by simp [Tortoise.normalize_list, hmsg, Except.map]⟩
    | cons e rest ih =>
        obtain ⟨msg, hmsg⟩ := ih
        refine ⟨msg, ?_⟩
        simp only [Tortoise.normalize_list, Except.map] at hmsg ⊢
        cases hgo : Tortoise.normalize_list.go true (rest.map sortEntryVal ++ v :: l2) with
        | ok w => rw [hgo] at hmsg; cases hmsg
        | error m =>
            rw [hgo] at hmsg
            simp at hmsg
            subst hmsg
            cases e with
            | inl s => simp [sortEntryVal, Tortoise.normalize_list.go, hgo, Except.map]
            | inr p => simp [sortEntryVal, Tortoise.normalize_list.go, hgo, Except.map]
  · have h : (fun v : PyVal =>
        match v with
        | .str s => PyVal.tuple [.str s, .bool false]
        | v => v) = sortNorm := by
      funext v; cases v <;> rfl
    simp [TortoiseAdmin.normalize_list, h]

/-- Witness for C5: a bare name and a pair normalize as claimed; a bad
shape raises in the legacy helper. -/
theorem C5_default_sort_normalize_corrected_witness :
    Tortoise.normalize_list (some [.str "a", .tuple [.str "b", .bool true]]) true
      = .ok (some [.tuple [.str "a", .bool false], .tuple [.str "b", .bool true]]) ∧
    (∃ msg, Tortoise.normalize_list (some [PyVal.int 5]) true = .error msg) :=
  ⟨C5_default_sort_normalize_corrected.1 [Sum.inl "a", Sum.inr ("b", true)],
   C5_default_sort_normalize_corrected.2.1 [] (.int 5) [] rfl⟩

/-- C5 counterexample to the claim as stated: `5` is neither a bare
name nor a `(name, bool)` pair, yet the `tortoise_admin` `normalize_list`
(one of the two cited implementations) passes it through unchanged in
default-sort mode instead of raising a validation error. -/
theorem C5_default_sort_normalize_counterexample :
    TortoiseAdmin.normalize_list (.list [.int 5]) true = [.int 5] ∧
    isSortEntry (.int 5) = false :=
  ⟨rfl, rfl⟩

/-- The empty pattern occurs in every string. -/
theorem occursIn_nil (s : List Char) : occursIn [] s = true := by
  cases s <;> simp [occursIn, leadsWith]

/-- An `icontains` lookup with an empty term matches every value. -/
theorem icontainsB_empty_term (s : String) : icontainsB s "" = true :=
  occursIn_nil (strLower s).toList

/-- An OR combination matches any record matched by one of its members. -/
theorem Q_evalAny_of_mem (r : Record) (q : Q) :
    ∀ (qs : List Q), q ∈ qs → Q.eval r q = true → Q.evalAny r qs = true := by
  intro qs
  induction qs with
  | nil => intro hq; simp at hq
  | cons a tl ih =>
      intro hq hev
      rcases List.mem_cons.mp hq with h | h
      · subst h; simp [Q.evalAny, hev]
      · simp [Q.evalAny, ih h hev]

/-- An OR combination none of whose members matches a record does not
match it. -/
theorem Q_evalAny_all_false (r : Record) :
    ∀ (qs : List Q), (∀ q ∈ qs, Q.eval r q = false) → Q.evalAny r qs = false := by
  intro qs
  induction qs with
  | nil => intro _; rfl
  | cons a tl ih =>
      intro h
      have ha := h a (by simp)
      have htl : ∀ q ∈ tl, Q.eval r q = false := fun q hq => h q (by simp [hq])
      simp [Q.evalAny, ha, ih htl]

/-- C6 (corrected). Search-predicate construction: with a non-empty field
list and non-empty term, both the `tortoise_admin` helper and the legacy
view method build the OR-combination of one case-insensitive containment
condition per field.  With an empty field list or an empty term the
`tortoise_admin` helper returns the no-op `Q()` (always true), and the
legacy method returns `Q()` when the field list is empty; but with a
non-empty field list and an EMPTY term the legacy method — which never
checks the term — returns the OR of `icontains ""` conditions instead of
the no-op.  That predicate matches a record as soon as one searched field
is non-NULL, but `icontains` compiles to SQL `LIKE`, which a NULL column
never matches, so on a record whose searchable fields are all NULL it is
false: the legacy empty-term result is NOT the always-true predicate. -/
theorem C6_search_predicate_corrected :
    (∀ (term : String) (fields : List String), fields ≠ [] → term ≠ "" →
        TortoiseAdmin.build_search_query term fields
          = Q.orQ (fields.map fun field => Q.icontains field term)) ∧
    (∀ (term : String) (fields : List String), fields = [] ∨ term = "" →
        TortoiseAdmin.build_search_query term fields = Q.noop) ∧
    (∀ (term : String) (fields : List String) (r : Record),
        fields = [] ∨ term = "" →
        (TortoiseAdmin.build_search_query term fields).eval r = true) ∧
    (∀ (term : String) (sf : Option (List String)), sf.getD [] ≠ [] →
        Tortoise.get_search_query sf term
          = Q.orQ ((sf.getD []).map fun field => Q.icontains field term)) ∧
    (∀ (term : String) (sf : Option (List String)), sf.getD [] = [] →
        Tortoise.get_search_query sf term = Q.noop) ∧
    (∀ (sf : Option (List String)) (r : Record),
        (sf.getD [] = [] ∨ ∃ f ∈ sf.getD [], ∃ s, r f = some s) →
        (Tortoise.get_search_query sf "").eval r = true) ∧
    (∀ (term : String) (sf : Option (List String)) (r : Record),
        sf.getD [] ≠ [] → (∀ f ∈ sf.getD [], r f = Option.none) →
        (Tortoise.get_search_query sf term).eval r = false) := by
  have hadmin_noop : ∀ (term : String) (fields : List String),
      fields = [] ∨ term = "" →
      TortoiseAdmin.build_search_query term fields = Q.noop := by
    intro term fields h
    rcases h with h | h
    · subst h; simp [TortoiseAdmin.build_search_query]
    · subst h; simp [TortoiseAdmin.build_search_query]
  refine ⟨fun term fields h1 h2 => ?_, hadmin_noop,
    fun term fields r h => ?_, fun term sf h1 => ?_, fun term sf h1 => ?_,
    fun sf r h => ?_, fun term sf r h1 h2 => ?_⟩
  · simp [TortoiseAdmin.build_search_query, h1, h2, List.isEmpty_iff]
  · rw [hadmin_noop term fields h]; rfl
  · simp [Tortoise.get_search_query, h1, List.isEmpty_iff]
  · simp [Tortoise.get_search_query, h1]
  · rcases h with h | h
    · simp [Tortoise.get_search_query, h, Q.eval]
    · obtain ⟨f, hf, s, hs⟩ := h
      have hne : (sf.getD []).isEmpty = false := by
        cases hl : sf.getD [] with
        | nil => rw [hl] at hf; simp at hf
        | cons a tl => rfl
      simp only [Tortoise.get_search_query, hne, Bool.false_eq_true, if_false]
      simp only [Q.eval]
      exact Q_evalAny_of_mem r (Q.icontains f "") _
        (List.mem_map.mpr ⟨f, hf, rfl⟩)
        (by simp [Q.eval, hs, icontainsB_empty_term])
  · have hne : (sf.getD []).isEmpty = false := by
      cases hl : sf.getD [] with
      | nil => exact absurd hl h1
      | cons a tl => rfl
    simp only [Tortoise.get_search_query, hne, Bool.false_eq_true, if_false]
    simp only [Q.eval]
    apply Q_evalAny_all_false
    intro q hq
    obtain ⟨f, hf, rfl⟩ := List.mem_map.mp hq
    simp [Q.eval, h2 f hf]

/-- Witness for C6: the predicate over `["name", "email"]` and term `"al"`
is the two-branch OR; the helper returns the no-op on an empty term; the
legacy empty-term predicate is true on a record with a non-NULL `name` and
false on an all-NULL record. -/
theorem C6_search_predicate_corrected_witness :
    TortoiseAdmin.build_search_query "al" ["name", "email"]
      = Q.orQ [Q.icontains "name" "al", Q.icontains "email" "al"] ∧
    TortoiseAdmin.build_search_query "" ["name"] = Q.noop ∧
    (Tortoise.get_search_query (some ["name"]) "").eval
        (fun _ => some "Alice") = true ∧
    (Tortoise.get_search_query (some ["name"]) "al").eval
        (fun _ => Option.none) = false :=
  ⟨C6_search_predicate_corrected.1 "al" ["name", "email"] (by simp) (by simp),
   C6_search_predicate_corrected.2.1 "" ["name"] (Or.inr rfl),
   C6_search_predicate_corrected.2.2.2.2.2.1 (some ["name"])
      (fun _ => some "Alice") (Or.inr ⟨"name", by simp, "Alice", rfl⟩),
   C6_search_predicate_corrected.2.2.2.2.2.2 "al" (some ["name"])
      (fun _ => Option.none) (by simp) (fun f _ => rfl)⟩

/-- C6 counterexample to the claim as stated: with the non-empty field
list `["name"]` and the empty term, the legacy `get_search_query` returns
the OR of one `icontains ""` condition — not the no-op predicate — and on
a record whose `name` column is NULL that predicate evaluates to false
while the no-op `Q()` evaluates to true, so the result is not the
always-true predicate either. -/
theorem C6_search_predicate_counterexample :
    Tortoise.get_search_query (some ["name"]) "" = Q.orQ [Q.icontains "name" ""] ∧
    Q.orQ [Q.icontains "name" ""] ≠ Q.noop ∧
    (Tortoise.get_search_query (some ["name"]) "").eval (fun _ => Option.none)
      = false ∧
    Q.eval (fun _ => Option.none) Q.noop = true :=
  ⟨rfl, fun h => Q.noConfusion h, rfl, rfl⟩

/-- On entries that split into exactly two tokens, `build_order_query`
maps each entry to its ordering key. -/
theorem build_order_query_all_good (entries : List String)
    (h : ∀ v ∈ entries, (splitMax1 (pyStrip v)).length = 2) :
    TortoiseAdmin.build_order_query entries = .ok (entries.map orderKey) := by
  induction entries with
  | nil => rfl
  | cons v rest ih =>
      have hv := h v (by simp)
      have hrest : ∀ u ∈ rest, (splitMax1 (pyStrip u)).length = 2 :=
        fun u hu => h u (by simp [hu])
      rcases hsp : splitMax1 (pyStrip v) with _ | ⟨f, _ | ⟨d, _ | ⟨z, tl⟩⟩⟩
      · rw [hsp] at hv; cases hv
      · rw [hsp] at hv; cases hv
      · simp [TortoiseAdmin.build_order_query, hsp, ih hrest, Except.map, orderKey]
      · rw [hsp] at hv; cases hv

/-- An entry that does not split into exactly two tokens raises
`ValueError`, and the entries before it do not mask the error. -/
theorem build_order_query_first_bad (l1 : List String) (v : String)
    (l2 : List String) (h1 : ∀ u ∈ l1, (splitMax1 (pyStrip u)).length = 2)
    (hv : (splitMax1 (pyStrip v)).length ≠ 2) :
    TortoiseAdmin.build_order_query (l1 ++ v :: l2)
      = .error "not enough values to unpack (expected 2)" := by
  induction l1 with
  | nil =>
      rcases hsp : splitMax1 (pyStrip v) with _ | ⟨f, _ | ⟨d, _ | ⟨z, tl⟩⟩⟩
      · simp [TortoiseAdmin.build_order_query, hsp]
      · simp [TortoiseAdmin.build_order_query, hsp]
      · rw [hsp] at hv; cases hv rfl
      · simp [TortoiseAdmin.build_order_query, hsp]
  | cons u rest ih =>
      have hu := h1 u (by simp)
      have hrest : ∀ w ∈ rest, (splitMax1 (pyStrip w)).length = 2 :=
        fun w hw => h1 w (by simp [hw])
      rcases hsp : splitMax1 (pyStrip u) with _ | ⟨f, _ | ⟨d, _ | ⟨z, tl⟩⟩⟩
      · rw [hsp] at hu; cases hu
      · rw [hsp] at hu; cases hu
      · simp [TortoiseAdmin.build_order_query, hsp, ih hrest, Except.map]
      · rw [hsp] at hu; cases hu

/-- C7 (corrected). Order-clause builder: a two-token entry whose
direction, lower-cased, equals `"desc"` yields `"-" ++ field`; any other
direction yields the plain field name; an entry with FEWER than two
whitespace-separated tokens makes the tuple unpacking raise `ValueError`;
but the split uses `maxsplit=1`, so an entry with MORE than two tokens
does not raise — everything after the first token becomes the direction
(e.g. `"price desc extra"` has direction `"desc extra"`, which is not
`"desc"`, so it is accepted as ascending). -/
theorem C7_order_clause_corrected :
    (∀ entries : List String, (∀ v ∈ entries, (splitMax1 (pyStrip v)).length = 2) →
        TortoiseAdmin.build_order_query entries = .ok (entries.map orderKey)) ∧
    (∀ (l1 : List String) (v : String) (l2 : List String),
        (∀ u ∈ l1, (splitMax1 (pyStrip u)).length = 2) →
        (splitMax1 (pyStrip v)).length ≠ 2 →
        TortoiseAdmin.build_order_query (l1 ++ v :: l2)
          = .error "not enough values to unpack (expected 2)") ∧
    TortoiseAdmin.build_order_query ["price desc"] = .ok ["-price"] ∧
    TortoiseAdmin.build_order_query ["price asc"] = .ok ["price"] ∧
    TortoiseAdmin.build_order_query ["price DESC"] = .ok ["-price"] ∧
    TortoiseAdmin.build_order_query ["price"]
      = .error "not enough values to unpack (expected 2)" ∧
    wsTokens "price desc extra" = ["price", "desc", "extra"] ∧
    TortoiseAdmin.build_order_query ["price desc extra"] = .ok ["price"] :=
  ⟨build_order_query_all_good, build_order_query_first_bad,
   rfl, rfl, rfl, rfl, rfl, rfl⟩

/-- Witness for C7 at concrete inputs, discharging the token-count
hypotheses. -/
theorem C7_order_clause_corrected_witness :
    TortoiseAdmin.build_order_query ["rating desc", "name asc"]
      = .ok ["-rating", "name"] ∧
    TortoiseAdmin.build_order_query ["rating desc", ""]
      = .error "not enough values to unpack (expected 2)" :=
  ⟨C7_order_clause_corrected.1 ["rating desc", "name asc"] (by decide),
   C7_order_clause_corrected.2.1 ["rating desc"] "" [] (by decide) (by decide)⟩

/-- C7 counterexample to the claim as stated: `"price desc extra"` is
three whitespace-separated tokens — not exactly two — yet
`build_order_query` accepts it (returning the ascending key `"price"`,
because the `maxsplit=1` direction `"desc extra"` is not `"desc"`) instead
of raising. -/
theorem C7_order_clause_counterexample :
    wsTokens "price desc extra" = ["price", "desc", "extra"] ∧
    TortoiseAdmin.build_order_query ["price desc extra"] = .ok ["price"] :=
  ⟨rfl, rfl⟩

/-- C1 (corrected). Composite primary key round-trip: the
`tortoise_admin` `MultiplePKField` behaves exactly as claimed —
serializing `("1", "2")` gives `"1,2"`, parsing `"1,2"` gives the tuple,
parsing `""` or `None` gives `None`, parsing any comma-containing string
with an empty part raises the field-level `FormValidationError`, and
serializing `None` gives `""`.  The legacy `tortoise` `MultiplePKField`
(the other cited implementation) deviates: it serializes `None` to
`"None"`, parses `""` to `""` (not `None`), parses `"1,"` to the list
`["1", ""]` without any error, and returns a list rather than a tuple. -/
theorem C1_composite_pk_corrected :
    TortoiseAdmin.serialize_value (.tuple [.str "1", .str "2"]) = "1,2" ∧
    (∀ name, TortoiseAdmin.parse_value name (.str "1,2")
        = .ok (.tuple [.str "1", .str "2"])) ∧
    (∀ name, TortoiseAdmin.parse_value name (.str "") = .ok .none) ∧
    (∀ name, TortoiseAdmin.parse_value name .none = .ok .none) ∧
    (∀ (name s : String), s.toList.contains ',' = true →
        (∃ p ∈ splitComma s, p = "") →
        TortoiseAdmin.parse_value name (.str s)
          = .error (.formValidation
              [(name, "All parts of composite primary key must be provided")])) ∧
    TortoiseAdmin.serialize_value .none = "" ∧
    Tortoise.serialize_value (.tuple [.str "1", .str "2"]) = "1,2" ∧
    Tortoise.parse_value (.str "1,2") = .list [.str "1", .str "2"] ∧
    Tortoise.serialize_value .none = "None" ∧
    Tortoise.parse_value (.str "") = .str "" ∧
    Tortoise.parse_value (.str "1,") = .list [.str "1", .str ""] := by
  refine ⟨rfl, fun name => rfl, fun name => rfl, fun name => rfl, ?_,
    rfl, rfl, rfl, rfl, rfl, rfl⟩
  intro name s hc hex
  have hne : s ≠ "" := by
    intro h
    subst h
    simp [List.contains] at hc
  have hfalsy : pyFalsy (.str s) = false := by
    simp [pyFalsy, hne]
  obtain ⟨p, hp, hpe⟩ := hex
  have hall : ((splitComma s).all fun p => !(p == "")) = false := by
    apply Bool.eq_false_iff.mpr
    intro hA
    rw [List.all_eq_true] at hA
    have hx := hA p hp
    subst hpe
    simp at hx
  have hc2 : ',' ∈ s.data := by simpa [List.contains] using hc
  simp [TortoiseAdmin.parse_value, hfalsy, hc, hc2, hall]

/-- Witness for C1 at the concrete malformed key `"1,"`, discharging the
comma and empty-part hypotheses. -/
theorem C1_composite_pk_corrected_witness :
    TortoiseAdmin.parse_value "id" (.str "1,")
      = .error (.formValidation
          [("id", "All parts of composite primary key must be provided")]) :=
  C1_composite_pk_corrected.2.2.2.2.1 "id" "1," rfl ⟨"", by decide, rfl⟩

/-- C1 counterexample to the claim as stated: the legacy `tortoise`
`MultiplePKField` (one of the two cited implementations) serializes `None`
to `"None"`, not the empty string, parses `""` to `""` rather than `None`,
and parses `"1,"` to `["1", ""]` without raising any validation error. -/
theorem C1_composite_pk_counterexample :
    Tortoise.serialize_value PyVal.none = "None" ∧ ("None" : String) ≠ "" ∧
    Tortoise.parse_value (.str "") = .str "" ∧
    Tortoise.parse_value (.str "1,") = .list [.str "1", .str ""] :=
  ⟨rfl, by decide, rfl, rfl⟩

/-- C2 (corrected). Exception taxonomy: the `tortoise_admin` views
route every exception through `handle_exception`, which converts the
ORM exception `ValidationError` into a `FormValidationError` carrying the
per-field errors and re-raises everything else unchanged; but the mutating operations of the legacy
`tortoise` view wrap EVERY exception — whatever its
class — into `FormValidationError({"error": str(e)})`, so "every other
unexpected exception is re-raised unchanged" fails for them. -/
theorem C2_exception_taxonomy_corrected :
    (∀ errors, TortoiseAdmin.handle_exception (.validation errors)
        = .formValidation errors) ∧
    (∀ errors, TortoiseAdmin.handle_exception (.formValidation errors)
        = .formValidation errors) ∧
    (∀ clsName msg, TortoiseAdmin.handle_exception (.other clsName msg)
        = .other clsName msg) ∧
    (∀ (fm : List (String × FieldKind))
        (addF : String → List PyVal → Option Exc) (e : Exc)
        (data : List (String × PyVal)),
        Tortoise.create ⟨fm, some e, addF⟩ data
          = ([], some (.formValidation [("error", excStr e)]))) ∧
    (∀ (f : String) (e : Exc) (vs : List PyVal),
        Tortoise.create ⟨[(f, .manyToMany)], Option.none, fun _ _ => some e⟩
            [(f, .list vs)]
          = ([.save, .addRel f vs], some (.formValidation [("error", excStr e)]))) := by
  refine ⟨fun errors => rfl, fun errors => rfl, fun clsName msg => rfl,
    fun fm addF e data => rfl, fun f e vs => ?_⟩
  simp [Tortoise.create, extractRelations, setRelations, starArgs, List.lookup]

/-- C2 counterexample to the claim as stated: a `KeyError` escaping
the `create` of the legacy `tortoise` view is not re-raised unchanged — it
comes back wrapped as a `FormValidationError`. -/
theorem C2_exception_taxonomy_counterexample :
    Tortoise.create ⟨[], some (.other "KeyError" "boom"), fun _ _ => Option.none⟩ []
      = ([], some (.formValidation [("error", "boom")])) ∧
    Exc.formValidation [("error", "boom")] ≠ Exc.other "KeyError" "boom" :=
  ⟨rfl, by decide⟩

/-- C3 (corrected). A relation field submitted with `None` is indeed
excluded from foreign-model RESOLUTION — the `_arrange_data` guard:
`data[field.name] is not None` skips the `find_by_pk`/`find_by_pks`
lookup, which is why both results below hold for EVERY `rpk`/`rpks` — but
it is NOT excluded from the relation pass of `create`: the `None` entry is
still popped into `relations`, so a to-one relation undergoes
`setattr(instance, field, None)` followed by a second `instance.save()`,
and a many-to-many relation reaches `add(*None)`, whose unpacking raises
`TypeError`. -/
theorem C3_none_relation_corrected :
    (∀ (f : String) (rpk rpks : String → PyVal → PyVal),
        TortoiseAdmin.create
          ⟨[(f, .toOne)], [⟨f, true, false⟩], rpk, rpks, Option.none, Option.none,
            Option.none, fun _ _ => Option.none⟩ [(f, PyVal.none)]
          = ([.beforeCreate, .save, .assignRel f PyVal.none, .save, .afterCreate],
              Option.none)) ∧
    (∀ (f : String) (rpk rpks : String → PyVal → PyVal),
        TortoiseAdmin.create
          ⟨[(f, .manyToMany)], [⟨f, true, true⟩], rpk, rpks, Option.none, Option.none,
            Option.none, fun _ _ => Option.none⟩ [(f, PyVal.none)]
          = ([.beforeCreate, .save],
              some (.other "TypeError"
                "Value after * must be an iterable, not NoneType"))) := by
  constructor
  · intro f rpk rpks
    simp [TortoiseAdmin.create, TortoiseAdmin._arrange_data,
      TortoiseAdmin._arrange_data.go, TortoiseAdmin.validate, extractRelations,
      setRelations, starArgs, isPyNone, List.lookup, TortoiseAdmin.handle_exception,
      Except.map]
  · intro f rpk rpks
    simp [TortoiseAdmin.create, TortoiseAdmin._arrange_data,
      TortoiseAdmin._arrange_data.go, TortoiseAdmin.validate, extractRelations,
      setRelations, starArgs, isPyNone, List.lookup, TortoiseAdmin.handle_exception,
      Except.map]
    rfl

/-- C3 counterexample to the claim as stated: creating with
`{"author": None}` on a model with a to-one relation `author` performs a
relation assignment-and-save for that field — the trace contains
`assignRel "author" None` followed by a second `save` — although the
claim says no such operation may happen. -/
theorem C3_none_relation_counterexample :
    TortoiseAdmin.create
      ⟨[("author", .toOne)], [⟨"author", true, false⟩],
        (fun _ _ => PyVal.str "RESOLVED"), (fun _ _ => PyVal.list []),
        Option.none, Option.none, Option.none, fun _ _ => Option.none⟩
      [("author", PyVal.none)]
      = ([.beforeCreate, .save, .assignRel "author" PyVal.none, .save, .afterCreate],
          Option.none) := rfl

/-- The "Set relations" loop only ever appends events to the trace it is
given. -/
theorem setRelations_fst_append (fm : List (String × FieldKind))
    (af : String → List PyVal → Option Exc) (rels : List (String × PyVal))
    (tr : List Ev) : ∃ rest, (setRelations fm af rels tr).1 = tr ++ rest := by
  induction rels generalizing tr with
  | nil => exact ⟨[], by simp [setRelations]⟩
  | cons fv rest ih =>
      obtain ⟨f, v⟩ := fv
      cases hk : (fm.lookup f).getD FieldKind.scalar with
      | manyToMany =>
          cases hsa : starArgs v with
          | error e => exact ⟨[], by simp [setRelations, hk, hsa]⟩
          | ok vs =>
              cases haf : af f vs with
              | some e => exact ⟨[.addRel f vs], by simp [setRelations, hk, hsa, haf]⟩
              | none =>
                  obtain ⟨r2, hr2⟩ := ih (tr ++ [.addRel f vs])
                  exact ⟨.addRel f vs :: r2, by simp [setRelations, hk, hsa, haf, hr2]⟩
      | scalar =>
          obtain ⟨r2, hr2⟩ := ih (tr ++ [.assignRel f v, .save])
          exact ⟨.assignRel f v :: .save :: r2, by simp [setRelations, hk, hr2]⟩
      | toOne =>
          obtain ⟨r2, hr2⟩ := ih (tr ++ [.assignRel f v, .save])
          exact ⟨.assignRel f v :: .save :: r2, by simp [setRelations, hk, hr2]⟩

/-- Every `create` trace is empty, just the pre-create hook, or starts
with the pre-create hook followed by the first save. -/
theorem TortoiseAdmin_create_trace_shape (env : TortoiseAdmin.CreateEnv)
    (data : List (String × PyVal)) :
    (TortoiseAdmin.create env data).1 = [] ∨
    (TortoiseAdmin.create env data).1 = [Ev.beforeCreate] ∨
    (TortoiseAdmin.create env data).1.take 2 = [Ev.beforeCreate, Ev.save] := by
  simp only [TortoiseAdmin.create]
  cases harr : TortoiseAdmin._arrange_data env data with
  | error e => simp [harr]
  | ok arranged =>
      cases hval : TortoiseAdmin.validate env with
      | some e => simp [harr, hval]
      | none =>
          cases hbf : env.beforeFailure with
          | some e => simp [harr, hval, hbf]
          | none =>
              obtain ⟨rest, hrest⟩ := setRelations_fst_append env.fields_map
                env.addFailure (extractRelations env.fields_map arranged)
                [Ev.beforeCreate, Ev.save]
              cases hsr : setRelations env.fields_map env.addFailure
                  (extractRelations env.fields_map arranged)
                  [Ev.beforeCreate, Ev.save] with
              | mk tr2 res2 =>
                  rw [hsr] at hrest
                  simp only at hrest
                  subst hrest
                  cases res2 with
                  | some e =>
                      right; right
                      simp [harr, hval, hbf, hsr]
                  | none =>
                      cases haf : env.afterFailure with
                      | some e =>
                          right; right
                          simp [harr, hval, hbf, hsr, haf]
                      | none =>
                          right; right
                          simp [harr, hval, hbf, hsr, haf]

/-- C10 (confirmed). Create is not atomic on error: in the
`tortoise_admin` `ModelView.create` the instance is saved before any
relation attachment or the `after_create` hook runs — every run whose
trace contains a relation event or the post-create hook starts with
`before_create` followed by `save` — and when the post-create hook or a
many-to-many `add` raises, `create` propagates the exception
(`handle_exception`-normalized) while the `save` stays in the trace; the
event language has no operation that removes a saved instance, so the
store is not restored. -/
theorem C10_create_not_atomic :
    (∀ (env : TortoiseAdmin.CreateEnv) (data : List (String × PyVal))
        (tr : List Ev) (r : Option Exc),
        TortoiseAdmin.create env data = (tr, r) →
        (∃ e ∈ tr, isRelEv e = true) →
        tr.take 2 = [Ev.beforeCreate, Ev.save]) ∧
    (∀ (e : Exc) (v : PyVal) (rpk rpks : String → PyVal → PyVal),
        TortoiseAdmin.create
          ⟨[("title", .scalar)], [⟨"title", false, false⟩], rpk, rpks,
            Option.none, Option.none, some e, fun _ _ => Option.none⟩ [("title", v)]
          = ([.beforeCreate, .save], some (TortoiseAdmin.handle_exception e))) ∧
    (∀ (f : String) (e : Exc) (vs : List PyVal) (rpk : String → PyVal → PyVal),
        TortoiseAdmin.create
          ⟨[(f, .manyToMany)], [⟨f, true, true⟩], rpk, (fun _ v => v),
            Option.none, Option.none, Option.none, fun _ _ => some e⟩
          [(f, PyVal.list vs)]
          = ([.beforeCreate, .save, .addRel f vs],
              some (TortoiseAdmin.handle_exception e))) := by
  refine ⟨?_, ?_, ?_⟩
  · intro env data tr r hcr hrel
    obtain ⟨e0, he0, hrel0⟩ := hrel
    have hfst : (TortoiseAdmin.create env data).1 = tr := by rw [hcr]
    rcases TortoiseAdmin_create_trace_shape env data with h | h | h
    · rw [hfst] at h
      subst h
      simp at he0
    · rw [hfst] at h
      subst h
      simp at he0
      subst he0
      simp [isRelEv] at hrel0
    · rw [hfst] at h
      exact h
  · intro e v rpk rpks
    simp [TortoiseAdmin.create, TortoiseAdmin._arrange_data,
      TortoiseAdmin._arrange_data.go, TortoiseAdmin.validate, extractRelations,
      setRelations, starArgs, isPyNone, List.lookup, Except.map]
  · intro f e vs rpk
    simp [TortoiseAdmin.create, TortoiseAdmin._arrange_data,
      TortoiseAdmin._arrange_data.go, TortoiseAdmin.validate, extractRelations,
      setRelations, starArgs, isPyNone, List.lookup, Except.map]

/-- Witness for C10: a concrete run whose trace reaches the post-create
hook starts with `before_create` then `save`, and a concrete failing
post-create hook propagates the error with the save already in the
trace. -/
theorem C10_create_not_atomic_witness :
    ([Ev.beforeCreate, Ev.save, Ev.afterCreate].take 2
        = [Ev.beforeCreate, Ev.save]) ∧
    TortoiseAdmin.create
      ⟨[("title", FieldKind.scalar)], [⟨"title", false, false⟩],
        (fun _ v => v), (fun _ v => v), Option.none, Option.none,
        some (Exc.other "RuntimeError" "hook boom"), fun _ _ => Option.none⟩
      [("title", PyVal.str "t")]
      = ([Ev.beforeCreate, Ev.save], some (Exc.other "RuntimeError" "hook boom")) :=
  ⟨C10_create_not_atomic.1
      ⟨[("title", FieldKind.scalar)], [⟨"title", false, false⟩],
        (fun _ v => v), (fun _ v => v), Option.none, Option.none,
        Option.none, fun _ _ => Option.none⟩
      [("title", PyVal.str "t")]
      [Ev.beforeCreate, Ev.save, Ev.afterCreate] Option.none rfl
      ⟨Ev.afterCreate, by simp, rfl⟩,
   C10_create_not_atomic.2.1 (Exc.other "RuntimeError" "hook boom")
      (PyVal.str "t") (fun _ v => v) (fun _ v => v)⟩
